import Mathlib

/-!
# WebCAT core: shallow embedding and verification

This file embeds the WebCAT radio-control core in Lean 4 and proves (or
refutes) the behavioural claims made by its specification.

Sources embedded:
* webcat-base.js (the unnamed base library): clamp, interp1D, the
  RadioController state snapshot, event folding (_applyEvent), the receive
  loop's per-frame processing, and the startPolling / stopPolling state
  machine.
* drivers/webcat-icom-ic9700.js (CI-V delimited binary protocol):
  extractFrames, cmdSetFreqHz, cmdSetMode, _parseFrame, _decodeFreqHz,
  _decodeMode, _decodeLevel0to255, parseFrame.
* drivers/webcat-yaesu-ft991a.js (ASCII CAT protocol): extractFrames,
  cmdSetFreqHz, cmdSetMode, parseFrame.

Modelling conventions:
* Bytes are Nat (with explicit bounds where byte-ness matters); receive
  buffers are List Nat.
* JS numbers on the frequency/level API boundary are modelled as Int/Nat
  (the code applies Math.round first and rejects non-finite input, which the
  Int model reflects); calibration arithmetic (interp1D, watts/volts/amps)
  is modelled over the rationals.
* Fallible operations return Except/Option; a JS throw is Except.error.
* Loops that splice the receive buffer in place are modelled as structurally
  recursive functions over a fuel argument initialised to the buffer length;
  each loop iteration of the source consumes at least one buffer byte, so
  the fuel-exhaustion branch is unreachable on the initial call.  That
  branch returns the not-yet-consumed buffer unchanged, which also keeps
  every theorem below true for arbitrary fuel.
-/

namespace WebCAT

/-- JS clamp from webcat-base.js: Math.max(a, Math.min(b, n)), over Int. -/
def jsClamp (n a b : Int) : Int := max a (min b n)

/-- clamp over Nat (used where the source clamps a byte-valued quantity). -/
def jsClampNat (n a b : Nat) : Nat := max a (min b n)

/-- First index i with buf[i] = 0xFE and buf[i+1] = 0xFE, scanning i from 0
to length - 2; mirrors the start-marker scan loop of the CI-V
extractFrames. -/
def civFindStart : List Nat → Option Nat
  | a :: b :: rest =>
    if a = 0xFE ∧ b = 0xFE then some 0
    else (civFindStart (b :: rest)).map (· + 1)
  | _ => none

/-- rxBuf.indexOf(0xFD, 2): first index ≥ 2 holding 0xFD. -/
def civFindEnd (l : List Nat) : Option Nat :=
  ((l.drop 2).findIdx? (· = 0xFD)).map (· + 2)

/-- The CI-V extractFrames loop body (IcomIC9700Driver.extractFrames).
Returns (extracted frames, remaining buffer).  The fuel argument stands for
the source's while loop; each iteration that continues consumes at least
three buffer bytes, so fuel = initial buffer length always suffices. -/
def icomExtractGo : Nat → List Nat → List (List Nat) × List Nat
  | 0, buf => ([], buf)
  | fuel + 1, buf =>
    if buf.length < 4 then ([], buf)
    else
      match civFindStart buf with
      | none => ([], [])
      | some s =>
        let buf1 := buf.drop s
        match civFindEnd buf1 with
        | none => ([], buf1)
        | some e =>
          let r := icomExtractGo fuel (buf1.drop (e + 1))
          (buf1.take (e + 1) :: r.1, r.2)

/-- IcomIC9700Driver.extractFrames (lines 90-105 of the driver). -/
def icomExtractFrames (buf : List Nat) : List (List Nat) × List Nat :=
  icomExtractGo buf.length buf

/-- Ghost variant of the CI-V extraction that also records, per extracted
frame, the noise bytes the source discards just before locating the frame
(and one trailing discard segment).  Same branch structure as
icomExtractGo; used only to state and prove byte-accounting results. -/
def icomExtractSegsGo : Nat → List Nat → List (List Nat) × List (List Nat) × List Nat
  | 0, buf => ([[]], [], buf)
  | fuel + 1, buf =>
    if buf.length < 4 then ([[]], [], buf)
    else
      match civFindStart buf with
      | none => ([buf], [], [])
      | some s =>
        let buf1 := buf.drop s
        match civFindEnd buf1 with
        | none => ([buf.take s], [], buf1)
        | some e =>
          let r := icomExtractSegsGo fuel (buf1.drop (e + 1))
          (buf.take s :: r.1, buf1.take (e + 1) :: r.2.1, r.2.2)

/-- Interleave discard segments with frames:
d0 ++ f0 ++ d1 ++ f1 ++ ... ++ dn ++ tail (drops has one more entry than
frames). -/
def interleaveDF : List (List Nat) → List (List Nat) → List Nat → List Nat
  | [], _, tail => tail
  | d :: _, [], tail => d ++ tail
  | d :: ds, f :: fs, tail => d ++ f ++ interleaveDF ds fs tail

/-- The ASCII CAT extractFrames loop body (YaesuFT991ADriver.extractFrames,
lines 70-79): repeatedly split at the first 0x3B delimiter, keeping the
delimiter with the frame. -/
def yaesuExtractGo : Nat → List Nat → List (List Nat) × List Nat
  | 0, buf => ([], buf)
  | fuel + 1, buf =>
    match buf.findIdx? (· = 0x3B) with
    | none => ([], buf)
    | some e =>
      let r := yaesuExtractGo fuel (buf.drop (e + 1))
      (buf.take (e + 1) :: r.1, r.2)

/-- YaesuFT991ADriver.extractFrames. -/
def yaesuExtractFrames (buf : List Nat) : List (List Nat) × List Nat :=
  yaesuExtractGo buf.length buf

/-! ## CI-V codec (webcat-icom-ic9700.js) -/

/-- bcdByteToDigits: lo = b & 0x0F, hi = (b >> 4) & 0x0F. -/
def bcdLo (b : Nat) : Nat := b &&& 0x0F

/-- High nibble of a BCD byte. -/
def bcdHi (b : Nat) : Nat := (b >>> 4) &&& 0x0F

/-- IcomCivTransport.buildFrame with the IC-9700 default addresses
(radioAddr = 0xA2, ctrlAddr = 0xE0): FE FE addr ctrl payload FD. -/
def civBuildFrame (payload : List Nat) : List Nat :=
  0xFE :: 0xFE :: 0xA2 :: 0xE0 :: (payload ++ [0xFD])

/-- The digit-extraction loop of cmdSetFreqHz: pushes n % 10 then recurses
on n / 10, k times (the source runs it with k = 10). -/
def pushDigits : Nat → Nat → List Nat
  | 0, _ => []
  | k + 1, n => n % 10 :: pushDigits k (n / 10)

/-- The byte-packing loop of cmdSetFreqHz: consecutive digit pairs
(lo, hi) become ((hi & 0x0F) << 4) | (lo & 0x0F). -/
def bcdPack : List Nat → List Nat
  | lo :: hi :: rest => (((hi &&& 0x0F) <<< 4) ||| (lo &&& 0x0F)) :: bcdPack rest
  | _ => []

/-- The five BCD payload bytes cmdSetFreqHz builds for frequency f. -/
def icomFreqBcd (f : Nat) : List Nat := bcdPack (pushDigits 10 f)

/-- IcomIC9700Driver.cmdSetFreqHz (lines 51-65).  The hz argument models the
already-rounded JS number; non-finite input is excluded by the Int type and
f ≤ 0 throws. -/
def icomCmdSetFreqHz (hz : Int) : Except String (List Nat) :=
  if hz ≤ 0 then .error "Bad frequency"
  else .ok (civBuildFrame (0x05 :: icomFreqBcd hz.toNat))

/-- String.prototype.toUpperCase, as a character map (the mode names the
drivers compare against are all ASCII). -/
def jsToUpper (s : String) : String := String.mk (s.toList.map Char.toUpper)

/-- IC-9700 mode table of cmdSetMode. -/
def icomModeCode (m : String) : Option Nat :=
  if m = "LSB" then some 0x00
  else if m = "USB" then some 0x01
  else if m = "AM" then some 0x02
  else if m = "CW" then some 0x03
  else if m = "RTTY" then some 0x04
  else if m = "FM" then some 0x05
  else if m = "CW-R" then some 0x07
  else if m = "CWR" then some 0x07
  else if m = "RTTY-R" then some 0x08
  else if m = "DV" then some 0x17
  else if m = "DD" then some 0x22
  else none

/-- IcomIC9700Driver.cmdSetMode (lines 67-76): uppercase the name, look it
up in the closed table, throw on a miss. -/
def icomCmdSetMode (modeName : String) : Except String (List Nat) :=
  let m := jsToUpper modeName
  match icomModeCode m with
  | some code => .ok (civBuildFrame [0x06, code])
  | none => .error ("IC-9700 unsupported mode: " ++ modeName)

/-- IcomIC9700Driver._parseFrame (lines 107-112): validate the markers and
return the body frameBytes.slice(4, length - 1). -/
def icomParseBody (frameBytes : List Nat) : Option (List Nat) :=
  if frameBytes.length < 6 then none
  else if frameBytes.getD 0 0 ≠ 0xFE then none
  else if frameBytes.getD 1 0 ≠ 0xFE then none
  else if frameBytes.getLast? ≠ some 0xFD then none
  else some ((frameBytes.drop 4).dropLast)

/-- Positional decimal value Σ digits[pos] * 10 ^ pos of _decodeFreqHz,
written in Horner form. -/
def bcdVal : List Nat → Nat
  | [] => 0
  | d :: ds => d + 10 * bcdVal ds

/-- IcomIC9700Driver._decodeFreqHz (lines 114-124): ten little-endian BCD
digits from the first five payload bytes.  Nibbles are not validated. -/
def icomDecodeFreqHz (data : List Nat) : Option Nat :=
  if data.length < 5 then none
  else some (bcdVal (((data.take 5).map (fun b => [bcdLo b, bcdHi b])).flatten))

/-- hex2: two-digit uppercase hex of b & 0xFF. -/
def hex2 (n : Nat) : String :=
  let b := n &&& 0xFF
  let digit (d : Nat) : Char := if d < 10 then Char.ofNat (48 + d) else Char.ofNat (55 + d)
  String.mk [digit (b / 16), digit (b % 16)]

/-- IcomIC9700Driver._decodeMode (lines 126-134): map the first byte through
the mode table, falling back to a hex name. -/
def icomDecodeMode (data : List Nat) : Option String :=
  if data.length < 1 then none
  else
    let mode := data.getD 0 0
    let table : List (Nat × String) :=
      [(0x00, "LSB"), (0x01, "USB"), (0x02, "AM"), (0x03, "CW"), (0x04, "RTTY"),
       (0x05, "FM"), (0x07, "CW-R"), (0x08, "RTTY-R"), (0x17, "DV"), (0x22, "DD")]
    match (table.find? (fun p => p.1 = mode)).map Prod.snd with
    | some s => some s
    | none => some ("0x" ++ hex2 mode)

/-- IcomIC9700Driver._decodeLevel0to255 (lines 136-149).  With at least two
bytes it first tries the digits [a.hi, a.lo, b.hi, b.lo] as 4-digit BCD,
accepting the value only if every nibble is ≤ 9 and the value is ≤ 255;
otherwise (and for a single byte) it falls back to clamp(data[0], 0, 255).
The JS guards d ≥ 0 and v ≥ 0 are trivially true over Nat. -/
def icomDecodeLevel0to255 (data : List Nat) : Option Nat :=
  if data.length < 1 then none
  else if data.length ≥ 2 then
    let a := data.getD 0 0
    let b := data.getD 1 0
    let digits := [bcdHi a, bcdLo a, bcdHi b, bcdLo b]
    if digits.all (fun d => d ≤ 9) then
      let v := digits.foldl (fun acc d => acc * 10 + d) 0
      if v ≤ 255 then some v
      else some (jsClampNat (data.getD 0 0) 0 255)
    else some (jsClampNat (data.getD 0 0) 0 255)
  else some (jsClampNat (data.getD 0 0) 0 255)

/-! ## Piecewise-linear interpolation (webcat-base.js lines 25-38) -/

/-- A calibration control point. -/
structure Pt where
  x : ℚ
  y : ℚ
deriving DecidableEq, Repr

/-- lerp(a, b, t) = a + (b - a) * t. -/
def lerp (a b t : ℚ) : ℚ := a + (b - a) * t

/-- The scan loop of interp1D over the sorted points: find the first
upper point p1 with x ≤ p1.x and lerp inside that segment; past the last
point return its y. -/
def interpSeg (x : ℚ) : Pt → List Pt → ℚ
  | p0, [] => p0.y
  | p0, p1 :: rest =>
    if x ≤ p1.x then lerp p0.y p1.y ((x - p0.x) / (p1.x - p0.x))
    else interpSeg x p1 rest

/-- interp1D(x, points): null for fewer than two points; otherwise sort the
points by x (the JS comparator (p, q) => p.x - q.x gives a stable ascending
sort, modelled by mergeSort), clamp below the first point to its y, and
interpolate. -/
def interp1D (x : ℚ) (points : List Pt) : Option ℚ :=
  if points.length < 2 then none
  else
    match points.mergeSort (fun p q => decide (p.x ≤ q.x)) with
    | [] => none
    | p0 :: rest => some (if x ≤ p0.x then p0.y else interpSeg x p0 rest)

/-! ## State-update events

One inductive covers the event objects produced by both drivers.  Level
fields arriving from the CI-V _decodeLevel0to255 can be null, hence
Option Int; the ASCII driver's parseInt results are plain Int. -/

/-- A decoded state-update event. -/
inductive Event where
  | freq (hz : Int)
  | mode (modeText : String)
  | ptt (isTx : Bool)
  | smeter (raw : Option Int)
  | po (raw : Option Int)
  | poW (raw : Int) (watts : ℚ)
  | swr (raw : Option Int) (ratio : ℚ)
  | rfpwrSetting (raw : Option Int)
  | rfpwrSettingW (pc : Int) (watts : ℚ)
  | vd (raw : Option Int) (volts : ℚ)
  | idm (raw : Option Int) (amps : ℚ)
  | extra (data : List (String × Bool))
deriving DecidableEq, Repr

/-- JS numeric coercion of a possibly-null level: null behaves as 0 in the
arithmetic and comparisons the decoders apply to it. -/
def jsNum (r : Option Int) : ℚ :=
  match r with
  | some n => (n : ℚ)
  | none => 0

/-- The CI-V SWR calibration points (webcat-icom-ic9700.js lines 180-182). -/
def icomSwrPoints : List Pt :=
  [⟨0, 1⟩, ⟨48, 3/2⟩, ⟨80, 2⟩, ⟨120, 3⟩, ⟨255, 10⟩]

/-- IcomIC9700Driver.parseFrame (lines 151-206).  Sequential early-return
checks of the source become an if chain; every guard matches the source
condition.  interp1D is total here because icomSwrPoints has five entries,
so its null branch is dead and getD 0 is never consulted. -/
def icomParseFrame (frameBytes : List Nat) : List Event :=
  match icomParseBody frameBytes with
  | none => []
  | some body =>
    if body.length = 1 ∧ (body.getD 0 0 = 0xFB ∨ body.getD 0 0 = 0xFA) then []
    else
      let cmd := body.getD 0 0
      let rest := body.drop 1
      if cmd = 0x03 then
        match icomDecodeFreqHz rest with
        | some hz => [.freq (hz : Int)]
        | none => []
      else if cmd = 0x04 then
        match icomDecodeMode rest with
        | some modeText => [.mode modeText]
        | none => []
      else if cmd = 0x1C ∧ rest.length ≥ 2 ∧ rest.getD 0 0 = 0x00 then
        [.ptt (rest.getD 1 0 = 0x01)]
      else if cmd = 0x15 ∧ rest.length ≥ 1 then
        let sub := rest.getD 0 0
        let raw := (icomDecodeLevel0to255 (rest.drop 1)).map (Int.ofNat)
        if sub = 0x02 then [.smeter raw]
        else if sub = 0x11 then [.po raw]
        else if sub = 0x12 then
          [.swr raw ((interp1D (jsNum raw) icomSwrPoints).getD 0)]
        else if sub = 0x15 then
          let r := jsNum raw
          let volts : ℚ := if r ≤ 13 then (r / 13) * 10 else 10 + ((r - 13) / (241 - 13)) * 6
          [.vd raw volts]
        else if sub = 0x16 then
          let r := jsNum raw
          let amps : ℚ := if r ≤ 121 then (r / 121) * 10 else 10 + ((r - 121) / (241 - 121)) * 10
          [.idm raw amps]
        else []
      else if cmd = 0x14 ∧ rest.length ≥ 1 ∧ rest.getD 0 0 = 0x0A then
        [.rfpwrSetting ((icomDecodeLevel0to255 (rest.drop 1)).map (Int.ofNat))]
      else []

/-! ## ASCII CAT driver (webcat-yaesu-ft991a.js)

The driver works on ASCII text: TextEncoder/TextDecoder are modelled as the
code-point maps below (every byte this protocol produces is < 0x80; high
bytes decode to non-ASCII characters, which is all the parser's structural
checks depend on). -/

/-- td.decode on one byte (identifying the decoder's high-byte outputs with
their code points; none of them is an ASCII character). -/
def jsByteChar (b : Nat) : Char := Char.ofNat b

/-- te.encode of a character sequence. -/
def charsBytes (cs : List Char) : List Nat := cs.map Char.toNat

/-- The whitespace set of the JS string trim reachable from decoded bytes:
tab, LF, VT, FF, CR, space, NBSP. -/
def jsIsSpace (c : Char) : Bool :=
  c.toNat = 9 ∨ c.toNat = 10 ∨ c.toNat = 11 ∨ c.toNat = 12 ∨ c.toNat = 13 ∨
  c.toNat = 32 ∨ c.toNat = 160

/-- String.prototype.trim. -/
def jsTrim (cs : List Char) : List Char :=
  ((cs.dropWhile jsIsSpace).reverse.dropWhile jsIsSpace).reverse

/-- The digit run consumed by parseInt once sign and whitespace are gone. -/
def jsParseDigits (cs : List Char) : Option Nat :=
  let ds := cs.takeWhile Char.isDigit
  if ds.isEmpty then none
  else some (ds.foldl (fun acc c => acc * 10 + (c.toNat - 48)) 0)

/-- parseInt(s, 10): skip leading whitespace, optional sign, then a
non-empty digit run (ignoring any trailing text); NaN is none. -/
def jsParseInt (cs : List Char) : Option Int :=
  let cs := cs.dropWhile jsIsSpace
  match cs with
  | '-' :: rest => (jsParseDigits rest).map (fun n => -(n : Int))
  | '+' :: rest => (jsParseDigits rest).map (fun n => (n : Int))
  | _ => (jsParseDigits cs).map (fun n => (n : Int))

/-- Decimal digit characters of n, accumulator style: the JS String(f) for
a non-negative integer.  Fuel n + 1 always exceeds the digit count. -/
def decCharsGo : Nat → Nat → List Char → List Char
  | 0, _, acc => acc
  | fuel + 1, n, acc =>
    let acc := Char.ofNat (48 + n % 10) :: acc
    if n < 10 then acc else decCharsGo fuel (n / 10) acc

/-- JS String(n) for a natural number. -/
def jsNatChars (n : Nat) : List Char := decCharsGo (n + 1) n []

/-- String.prototype.padStart(w, c). -/
def jsPadStart (cs : List Char) (w : Nat) (c : Char) : List Char :=
  List.replicate (w - cs.length) c ++ cs

/-- String.prototype.slice(-k) for a string of length ≥ k. -/
def jsSliceLast (cs : List Char) (k : Nat) : List Char :=
  cs.drop (cs.length - k)

/-- YaesuFT991ADriver.cmdSetFreqHz (lines 95-100): reject non-positive,
then emit FA + String(f).padStart(9, 0).slice(-9) + the delimiter. -/
def yaesuCmdSetFreqHz (hz : Int) : Except String (List Nat) :=
  if hz ≤ 0 then .error "Bad frequency"
  else
    let s := jsSliceLast (jsPadStart (jsNatChars hz.toNat) 9 '0') 9
    .ok (charsBytes (['F', 'A'] ++ s ++ [';']))

/-- FT-991A mode table of cmdSetMode. -/
def yaesuModeCode (m : String) : Option Char :=
  if m = "LSB" then some '1'
  else if m = "USB" then some '2'
  else if m = "CW" then some '3'
  else if m = "CW-U" then some '3'
  else if m = "FM" then some '4'
  else if m = "AM" then some '5'
  else if m = "RTTY" then some '6'
  else if m = "RTTY-LSB" then some '6'
  else if m = "CW-L" then some '7'
  else if m = "DATA-LSB" then some '8'
  else if m = "RTTY-USB" then some '9'
  else if m = "DATA-FM" then some 'A'
  else if m = "FM-N" then some 'B'
  else if m = "DATA-USB" then some 'C'
  else if m = "AM-N" then some 'D'
  else if m = "C4FM" then some 'E'
  else none

/-- YaesuFT991ADriver.cmdSetMode (lines 102-125). -/
def yaesuCmdSetMode (modeName : String) : Except String (List Nat) :=
  let m := jsToUpper modeName
  match yaesuModeCode m with
  | some code => .ok (charsBytes (['M', 'D', '0', code, ';']))
  | none => .error ("FT-991A unsupported mode: " ++ modeName)

/-- maxWattsFromHz: per-band power ceiling; a missing (NaN) frequency gives
the 100 W default. -/
def maxWattsFromHz (hz : Option Int) : ℚ :=
  match hz with
  | none => 100
  | some hz =>
    let mhz : ℚ := (hz : ℚ) / 1000000
    if 144 ≤ mhz ∧ mhz ≤ 148 then 50
    else if 420 ≤ mhz ∧ mhz ≤ 450 then 50
    else if 50 ≤ mhz ∧ mhz ≤ 54 then 100
    else 100

/-- clamp over ℚ for the watts computations. -/
def jsClampQ (n a b : ℚ) : ℚ := max a (min b n)

/-- Default FT-991A SWR calibration points (lines 55-59). -/
def yaesuSwrPoints : List Pt := [⟨0, 1⟩, ⟨65, 17/10⟩, ⟨255, 15/4⟩]

/-- Default FT-991A supply-voltage calibration points (lines 60-63). -/
def yaesuVoltPoints : List Pt := [⟨176, 129/10⟩, ⟨186, 137/10⟩]

/-- Mode table of the ASCII parseFrame (lines 161-164). -/
def yaesuParseModeMap : List (Char × String) :=
  [('1', "LSB"), ('2', "USB"), ('3', "CW-U"), ('4', "FM"), ('5', "AM"),
   ('6', "RTTY-LSB"), ('7', "CW-L"), ('8', "DATA-LSB"), ('9', "RTTY-USB"),
   ('A', "DATA-FM"), ('B', "FM-N"), ('C', "DATA-USB"), ('D', "AM-N"),
   ('E', "C4FM")]

/-- YaesuFT991ADriver.parseFrame (lines 149-193).  ctx is the controller
context's lastFreqHz (null when no frequency has been decoded yet; the JS
?? NaN fallback is the none case of maxWattsFromHz).  The interp1D point
lists have ≥ 2 entries, so getD 0 is never consulted. -/
def yaesuParseFrame (ctx : Option Int) (frameBytes : List Nat) : List Event :=
  let msg := jsTrim (frameBytes.map jsByteChar)
  if msg.getLast? = some ';' then
    let core := msg.dropLast
    if List.isPrefixOf ['F', 'A'] core ∧ core.length ≥ 11 then
      match jsParseInt ((core.drop 2).take 9) with
      | some hz => [.freq hz]
      | none => []
    else if List.isPrefixOf ['M', 'D'] core ∧ core.length ≥ 4 then
      let code := (core.getD 3 default).toUpper
      match (yaesuParseModeMap.find? (fun p => p.1 = code)).map Prod.snd with
      | some m => [.mode m]
      | none => [.mode (String.mk [code])]
    else if List.isPrefixOf ['T', 'X'] core ∧ core.length ≥ 3 then
      [.ptt (core.getD 2 default = '2')]
    else if List.isPrefixOf ['P', 'C'] core ∧ core.length ≥ 5 then
      match jsParseInt ((core.drop 2).take 3) with
      | none => []
      | some pc =>
        [.rfpwrSettingW pc (jsClampQ (pc : ℚ) 0 (maxWattsFromHz ctx))]
    else if List.isPrefixOf ['R', 'M'] core ∧ core.length ≥ 6 then
      let idc := core.getD 2 default
      match jsParseInt ((core.drop 3).take 3) with
      | none => []
      | some raw =>
        if idc = '1' then [.smeter (some raw)]
        else if idc = '5' then
          [.poW raw (((raw : ℚ) / 255) * maxWattsFromHz ctx)]
        else if idc = '6' then
          [.swr (some raw) ((interp1D (raw : ℚ) yaesuSwrPoints).getD 0)]
        else if idc = '7' then
          [.idm (some raw) ((raw : ℚ) * (1/10))]
        else if idc = '8' then
          [.vd (some raw) ((interp1D (raw : ℚ) yaesuVoltPoints).getD 0)]
        else []
    else []
  else []

/-! ## RadioController (webcat-base.js lines 112-490)

The controller's mutable snapshot and its event folding are embedded as
explicit state passing.  Each _applyEvent call ends by emitting one
'update' notification carrying a copy of the snapshot; emissions are
modelled as the ordered list of emitted snapshots. -/

/-- The state snapshot of the controller (constructor lines 141-153).  The
meter channels store the whole event object, as the source does.  extras is
the key/value bag, here the datamode flags merged from extra events. -/
structure RadioState where
  connected : Bool := false
  ptt : Option Bool := none
  freqHz : Option Int := none
  mode : Option String := none
  smeterRaw : Option (Option Int) := none
  swr : Option Event := none
  po : Option Event := none
  rfpwr : Option Event := none
  vd : Option Event := none
  idm : Option Event := none
  extras : List (String × Bool) := []
deriving DecidableEq, Repr

/-- The controller context (ctx), holding lastFreqHz. -/
structure Ctx where
  lastFreqHz : Option Int := none
deriving DecidableEq, Repr

/-- Spread-merge of the extras bag: entries of the update shadow existing
keys (JS object spread). -/
def mergeExtras (old upd : List (String × Bool)) : List (String × Bool) :=
  old.filter (fun p => (upd.find? (fun q => q.1 = p.1)).isNone) ++ upd

/-- RadioController._applyEvent (lines 348-376), state change only.  The
JS guard rejecting non-object events is vacuous here since Event values
are always event objects.  Each event updates only the fields it names. -/
def applyEvent (s : RadioState) (ctx : Ctx) (ev : Event) : RadioState × Ctx :=
  match ev with
  | .ptt isTx => ({ s with ptt := some isTx }, ctx)
  | .freq hz => ({ s with freqHz := some hz }, { ctx with lastFreqHz := some hz })
  | .mode m => ({ s with mode := some m }, ctx)
  | .smeter raw => ({ s with smeterRaw := some raw }, ctx)
  | .swr _ _ => ({ s with swr := some ev }, ctx)
  | .po _ => ({ s with po := some ev }, ctx)
  | .poW _ _ => ({ s with po := some ev }, ctx)
  | .rfpwrSetting _ => ({ s with rfpwr := some ev }, ctx)
  | .rfpwrSettingW _ _ => ({ s with rfpwr := some ev }, ctx)
  | .vd _ _ => ({ s with vd := some ev }, ctx)
  | .idm _ _ => ({ s with idm := some ev }, ctx)
  | .extra data => ({ s with extras := mergeExtras s.extras data }, ctx)

/-- The receive loop's event folding for the events of one frame
(_readLoop lines 340-342 plus the update emission closing _applyEvent):
returns the final state/context and the ordered list of emitted update
snapshots, one per event, each taken right after that event was applied. -/
def applyEvents (s : RadioState) (ctx : Ctx) :
    List Event → (RadioState × Ctx) × List RadioState
  | [] => ((s, ctx), [])
  | ev :: rest =>
    let (s1, ctx1) := applyEvent s ctx ev
    let (fin, outs) := applyEvents s1 ctx1 rest
    (fin, s1 :: outs)

/-- One frame of the receive loop for the CI-V driver (_readLoop lines
328-343): decode the frame, fold each event, collecting the update
notifications emitted while doing so. -/
def icomProcessFrame (s : RadioState) (ctx : Ctx) (frameBytes : List Nat) :
    (RadioState × Ctx) × List RadioState :=
  applyEvents s ctx (icomParseFrame frameBytes)

/-! ### Polling state machine (startPolling lines 378-428, stopPolling
lines 430-441)

Only the fields the polling logic reads and writes are modelled.  The
ghost field spawned records the run id of every poll-loop task ever
created; a spawned task is live exactly while polling holds and its id
equals the current pollRunId (the loop re-checks both before each step),
so liveness is a pure function of this state. -/

/-- Polling-related controller state. -/
structure PollState where
  connected : Bool
  polling : Bool
  pollRunId : Nat
  pollIntervalMs : Int
  pollStopLogged : Bool
  spawned : List Nat
deriving DecidableEq, Repr

/-- The polling fields as the constructor initialises them (lines 130-137):
not polling, run id 0, 250 ms interval, no loop ever spawned. -/
def initialPollState : PollState :=
  { connected := false, polling := false, pollRunId := 0,
    pollIntervalMs := 250, pollStopLogged := false, spawned := [] }

/-- The constructor state once _connectInternal has set connected (line
245); polling state is untouched by connecting. -/
def connectedPollState : PollState := { initialPollState with connected := true }

/-- Number(intervalMs) || this.pollIntervalMs of startPolling: 0 and NaN
(the none case) are falsy and fall back to the stored interval. -/
def pollArgValue (s : PollState) (intervalMs : Option Int) : Int :=
  match intervalMs with
  | some n => if n = 0 then s.pollIntervalMs else n
  | none => s.pollIntervalMs

/-- RadioController.startPolling.  The argument models Number(intervalMs):
none for a non-numeric argument (NaN), some n otherwise.
_ensureConnected throws first; while already polling only the interval is
updated; otherwise a new loop task is spawned under a fresh run id. -/
def startPolling (s : PollState) (intervalMs : Option Int) : Except String PollState :=
  if ¬ s.connected then .error "Not connected"
  else
    let s := { s with pollIntervalMs := jsClamp (pollArgValue s intervalMs) 20 10000 }
    if s.polling then .ok s
    else
      let rid := s.pollRunId + 1
      .ok { s with polling := true, pollStopLogged := false, pollRunId := rid,
                   spawned := s.spawned ++ [rid] }

/-- RadioController.stopPolling: idempotent; bumps the run id so any
still-running task goes dead before its next submission. -/
def stopPolling (s : PollState) : PollState :=
  if ¬ s.polling then s
  else { s with polling := false, pollRunId := s.pollRunId + 1, pollStopLogged := true }

/-- Number of live poll loops: spawned tasks whose run id is current while
polling holds. -/
def activeLoops (s : PollState) : Nat :=
  (s.spawned.filter (fun r => s.polling ∧ r = s.pollRunId)).length

/-- Ghost-state sanity: spawned ids are distinct, never ahead of the
current run id, and while polling the current run id belongs to a spawned
task.  Holds initially and is preserved by both operations. -/
def PollInv (s : PollState) : Prop :=
  s.spawned.Nodup ∧ (∀ r ∈ s.spawned, r ≤ s.pollRunId) ∧
  (s.polling = true → s.pollRunId ∈ s.spawned)

/-! # Theorems -/

/-! ## Mode rejection (C7) -/

/-- C7: for both drivers, cmdSetMode with a mode name outside the driver's
closed mode enumeration (its uppercase form missing from the mode table)
throws an error and produces no command bytes — never a best-effort
fallback. -/
theorem cmdSetMode_rejects_unknown_mode (m : String)
    (hIcom : icomModeCode (jsToUpper m) = none)
    (hYaesu : yaesuModeCode (jsToUpper m) = none) :
    icomCmdSetMode m = .error ("IC-9700 unsupported mode: " ++ m) ∧
    yaesuCmdSetMode m = .error ("FT-991A unsupported mode: " ++ m) := by
  refine ⟨?_, ?_⟩
  · simp [icomCmdSetMode, hIcom]
  · simp [yaesuCmdSetMode, hYaesu]

/-- C7 witness: cmdSetMode("NOT-A-MODE") fails for both drivers. -/
theorem cmdSetMode_rejects_unknown_mode_witness :
    icomCmdSetMode "NOT-A-MODE" = .error ("IC-9700 unsupported mode: " ++ "NOT-A-MODE") ∧
    yaesuCmdSetMode "NOT-A-MODE" = .error ("FT-991A unsupported mode: " ++ "NOT-A-MODE") :=
  cmdSetMode_rejects_unknown_mode "NOT-A-MODE" (by decide) (by decide)

/-! ## Raw-level BCD decoding (C8) -/

/-- C8 counterexample: payload 0x09 0x99 has every nibble ≤ 9 (digits
0, 9, 9, 9, BCD value 999), yet _decodeLevel0to255 does not return the
4-digit BCD value 999 — the decoder additionally requires the value to be
≤ 255 and here falls back to the first raw byte, 9. -/
theorem decodeLevel_bcd_counterexample :
    icomDecodeLevel0to255 [0x09, 0x99] = some 9 ∧ some (9 : Nat) ≠ some 999 := by
  decide

/-- C8 amended: for a payload of ≥ 2 byte values, the decoder returns the
4-digit BCD value of the first two bytes when every nibble is ≤ 9 AND that
value is ≤ 255; otherwise it falls back to the first raw byte directly.
It always returns a value (the BCD path failing never throws). -/
theorem decodeLevel_bcd_validated (a b : Nat) (rest : List Nat) (ha : a < 256) :
    icomDecodeLevel0to255 (a :: b :: rest) =
      some (if ([bcdHi a, bcdLo a, bcdHi b, bcdLo b].all (fun d => d ≤ 9)) ∧
               ([bcdHi a, bcdLo a, bcdHi b, bcdLo b].foldl (fun acc d => acc * 10 + d) 0 ≤ 255)
            then [bcdHi a, bcdLo a, bcdHi b, bcdLo b].foldl (fun acc d => acc * 10 + d) 0
            else a) := by
  have hclamp : jsClampNat a 0 255 = a := by
    simp only [jsClampNat]
    omega
  simp only [icomDecodeLevel0to255, List.length_cons, List.getD, List.get?, hclamp]
  split_ifs <;> simp_all
  omega

/-- C8 witness: 0x01 0x28 passes the validated BCD path (value 128). -/
theorem decodeLevel_bcd_validated_witness :
    icomDecodeLevel0to255 [0x01, 0x28, 0x05] = some 128 := by
  have h := decodeLevel_bcd_validated 0x01 0x28 [0x05] (by decide)
  simpa using h

/-! ## BCD frequency round trip (C3, shared with C4) -/

/-- Unpacking a packed BCD byte recovers both decimal digits. -/
theorem bcd_nibbles_of_pack (lo hi : Nat) (hlo : lo < 10) (hhi : hi < 10) :
    bcdLo (((hi &&& 0x0F) <<< 4) ||| (lo &&& 0x0F)) = lo ∧
    bcdHi (((hi &&& 0x0F) <<< 4) ||| (lo &&& 0x0F)) = hi := by
  interval_cases lo <;> interval_cases hi <;> decide

/-- Two steps of the digit-extraction loop. -/
theorem pushDigits_two_mul_succ (k n : Nat) :
    pushDigits (2 * (k + 1)) n = n % 10 :: (n / 10) % 10 :: pushDigits (2 * k) (n / 100) := by
  have h : 2 * (k + 1) = (2 * k + 1) + 1 := by ring
  rw [h]
  simp only [pushDigits]
  rw [Nat.div_div_eq_div_mul]

/-- Packing 2k digits yields k bytes. -/
theorem bcdPack_pushDigits_length (k : Nat) : ∀ n : Nat,
    (bcdPack (pushDigits (2 * k) n)).length = k := by
  induction k with
  | zero =>
    intro n
    simp [pushDigits, bcdPack]
  | succ k ih =>
    intro n
    rw [pushDigits_two_mul_succ]
    simp only [bcdPack, List.length_cons]
    rw [ih]

/-- Core round trip: encoding 2k decimal digits of f through the BCD
packer and reading them back through the nibble decoder recovers
f modulo 10 ^ 2k. -/
theorem bcdVal_pack_pushDigits (k : Nat) : ∀ f : Nat,
    bcdVal (((bcdPack (pushDigits (2 * k) f)).map (fun b => [bcdLo b, bcdHi b])).flatten)
      = f % 10 ^ (2 * k) := by
  induction k with
  | zero =>
    intro f
    simp [pushDigits, bcdPack, bcdVal, Nat.mod_one]
  | succ k ih =>
    intro f
    rw [pushDigits_two_mul_succ]
    obtain ⟨hlo, hhi⟩ := bcd_nibbles_of_pack (f % 10) (f / 10 % 10)
      (Nat.mod_lt _ (by norm_num)) (Nat.mod_lt _ (by norm_num))
    simp only [bcdPack, List.map_cons, List.flatten_cons, bcdVal,
      List.append_eq, List.cons_append, List.nil_append]
    rw [hlo, hhi, ih (f / 100)]
    have h1 : (10 : Nat) ^ (2 * (k + 1)) = 10 * (10 * 10 ^ (2 * k)) := by ring
    rw [h1, Nat.mod_mul, Nat.mod_mul, Nat.div_div_eq_div_mul]

/-- C3: for every frequency in the wire-supported range 0 < hz < 10^10,
the CI-V cmdSetFreqHz succeeds, and _decodeFreqHz applied to the 5-byte
BCD payload it produced yields exactly hz. -/
theorem icom_freq_roundtrip (f : Nat) (h1 : 0 < f) (h2 : f < 10 ^ 10) :
    icomCmdSetFreqHz (f : Int) = .ok (civBuildFrame (0x05 :: icomFreqBcd f)) ∧
    icomDecodeFreqHz (icomFreqBcd f) = some f := by
  constructor
  · rw [icomCmdSetFreqHz, if_neg (by omega)]
    norm_num
  · have hlen : (icomFreqBcd f).length = 5 := by
      have := bcdPack_pushDigits_length 5 f
      simpa [icomFreqBcd] using this
    rw [icomDecodeFreqHz, if_neg (by omega)]
    rw [show (5 : Nat) = (icomFreqBcd f).length from hlen.symm, List.take_length]
    have h10 : (10 : Nat) = 2 * 5 := by norm_num
    have := bcdVal_pack_pushDigits 5 f
    rw [icomFreqBcd, h10, this, Nat.mod_eq_of_lt (by omega)]

/-- C3 witness: 14074000 Hz round-trips through the CI-V BCD payload. -/
theorem icom_freq_roundtrip_witness :
    icomCmdSetFreqHz (14074000 : Int) = .ok (civBuildFrame (0x05 :: icomFreqBcd 14074000)) ∧
    icomDecodeFreqHz (icomFreqBcd 14074000) = some 14074000 :=
  icom_freq_roundtrip 14074000 (by norm_num) (by norm_num)

/-! ## Out-of-range frequencies are truncated, not rejected (C4) -/

/-- C4 counterexample: 10^9 Hz has ten decimal digits, one more than the
ASCII wire encoding holds, so it cannot round-trip — yet cmdSetFreqHz does
not reject it: it produces the byte string FA000000000; whose frequency
field decodes back to 0 ≠ 10^9. -/
theorem cmdSetFreq_truncates_counterexample :
    yaesuCmdSetFreqHz 1000000000 = .ok (charsBytes ("FA000000000;".toList)) ∧
    yaesuParseFrame none (charsBytes ("FA000000000;".toList)) = [.freq 0] ∧
    (0 : Int) ≠ 1000000000 := by
  refine ⟨by rfl, by decide, by decide⟩

/-- C4 amended: cmdSetFreqHz rejects exactly the non-positive (or
non-finite) frequencies; any positive frequency is encoded without a
range check, so a frequency wider than the wire field is silently
truncated — the CI-V payload decodes back to hz mod 10^10, and the ASCII
driver likewise produces command bytes (its digit string keeps only the
low-order nine digits, as the counterexample shows concretely). -/
theorem cmdSetFreq_rejects_only_nonpositive (hz : Int) :
    (hz ≤ 0 →
      icomCmdSetFreqHz hz = .error "Bad frequency" ∧
      yaesuCmdSetFreqHz hz = .error "Bad frequency") ∧
    (0 < hz →
      icomCmdSetFreqHz hz = .ok (civBuildFrame (0x05 :: icomFreqBcd hz.toNat)) ∧
      icomDecodeFreqHz (icomFreqBcd hz.toNat) = some (hz.toNat % 10 ^ 10) ∧
      ∃ bs, yaesuCmdSetFreqHz hz = .ok bs) := by
  constructor
  · intro hle
    exact ⟨by rw [icomCmdSetFreqHz, if_pos hle], by rw [yaesuCmdSetFreqHz, if_pos hle]⟩
  · intro hpos
    refine ⟨by rw [icomCmdSetFreqHz, if_neg (by omega)], ?_, ?_⟩
    · have hlen : (icomFreqBcd hz.toNat).length = 5 := by
        have := bcdPack_pushDigits_length 5 hz.toNat
        simpa [icomFreqBcd] using this
      rw [icomDecodeFreqHz, if_neg (by omega)]
      rw [show (5 : Nat) = (icomFreqBcd hz.toNat).length from hlen.symm, List.take_length]
      have h10 : (10 : Nat) = 2 * 5 := by norm_num
      rw [icomFreqBcd, h10, bcdVal_pack_pushDigits 5 hz.toNat]
    · exact ⟨_, by rw [yaesuCmdSetFreqHz, if_neg (by omega)]⟩

/-- C4 witness: at 10^10 Hz the CI-V encoder silently wraps to zero. -/
theorem cmdSetFreq_rejects_only_nonpositive_witness :
    icomDecodeFreqHz (icomFreqBcd ((10 ^ 10 : Int)).toNat) = some 0 := by
  have h := ((cmdSetFreq_rejects_only_nonpositive (10 ^ 10)).2 (by norm_num)).2.1
  simpa using h

/-! ## Frame-extraction byte accounting (C1) -/

/-- The ASCII extractFrames loses nothing: frames plus tail re-concatenate
to the input buffer, for every fuel value. -/
theorem yaesuExtractGo_conserves (fuel : Nat) : ∀ buf : List Nat,
    (yaesuExtractGo fuel buf).1.flatten ++ (yaesuExtractGo fuel buf).2 = buf := by
  induction fuel with
  | zero =>
    intro buf
    simp [yaesuExtractGo]
  | succ fuel ih =>
    intro buf
    simp only [yaesuExtractGo]
    split
    · rfl
    · rename_i e he
      have hr := ih (buf.drop (e + 1))
      simp only [List.flatten_cons, List.append_assoc, hr]
      exact List.take_append_drop (e + 1) buf

/-- The ghost CI-V extraction records one discard segment per frame plus a
trailing one, and interleaving them reconstructs the input buffer. -/
theorem icomExtractSegsGo_spec (fuel : Nat) : ∀ buf : List Nat,
    (icomExtractSegsGo fuel buf).1.length = (icomExtractSegsGo fuel buf).2.1.length + 1 ∧
    interleaveDF (icomExtractSegsGo fuel buf).1 (icomExtractSegsGo fuel buf).2.1
      (icomExtractSegsGo fuel buf).2.2 = buf := by
  induction fuel with
  | zero =>
    intro buf
    simp [icomExtractSegsGo, interleaveDF]
  | succ fuel ih =>
    intro buf
    simp only [icomExtractSegsGo]
    split
    · simp [interleaveDF]
    · split
      · simp [interleaveDF]
      · rename_i s hs
        split
        · rename_i he
          simp only [interleaveDF, List.length_cons, List.length_nil, true_and,
            List.nil_append]
          exact List.take_append_drop s buf
        · rename_i e he
          have hr := ih ((buf.drop s).drop (e + 1))
          simp only [interleaveDF, List.length_cons, hr.1, true_and]
          simp only [List.append_assoc, hr.2]
          rw [List.take_append_drop, List.take_append_drop]

/-- The ghost CI-V extraction computes the same frames and tail as
extractFrames itself. -/
theorem icomExtractSegsGo_agrees (fuel : Nat) : ∀ buf : List Nat,
    (icomExtractSegsGo fuel buf).2.1 = (icomExtractGo fuel buf).1 ∧
    (icomExtractSegsGo fuel buf).2.2 = (icomExtractGo fuel buf).2 := by
  induction fuel with
  | zero =>
    intro buf
    simp [icomExtractSegsGo, icomExtractGo]
  | succ fuel ih =>
    intro buf
    simp only [icomExtractSegsGo, icomExtractGo]
    split
    · exact ⟨rfl, rfl⟩
    · split
      · exact ⟨rfl, rfl⟩
      · rename_i s hs
        split
        · exact ⟨rfl, rfl⟩
        · rename_i e he
          have hr := ih ((buf.drop s).drop (e + 1))
          exact ⟨by rw [hr.1], hr.2⟩

/-- C1 counterexample: a CI-V receive buffer of four noise bytes holding no
start marker is cleared by extractFrames — no frame is extracted and no
tail is kept, so frames-plus-tail does not reproduce the buffer: bytes are
lost, contradicting the claim for all drivers and all inputs. -/
theorem extractFrames_conservation_counterexample :
    icomExtractFrames [0, 0, 0, 0] = ([], []) ∧
    (icomExtractFrames [0, 0, 0, 0]).1.flatten ++ (icomExtractFrames [0, 0, 0, 0]).2
      ≠ [0, 0, 0, 0] := by
  decide

/-- C1 amended: the ASCII driver's extractFrames conserves bytes exactly —
extracted frames plus the unconsumed tail re-concatenate, in order, to the
original buffer.  The CI-V driver's extractFrames conserves bytes only up
to the noise segments it deliberately discards while resynchronising on a
start marker (including clearing a ≥ 4 byte buffer holding no marker):
the original buffer is the in-order interleaving of one discarded segment
before each extracted frame, a final discarded segment, and the tail.
Incomplete trailing data after the last extracted frame is kept in the
tail for the next call. -/
theorem extractFrames_byte_accounting (buf : List Nat) :
    (yaesuExtractFrames buf).1.flatten ++ (yaesuExtractFrames buf).2 = buf ∧
    ∃ drops : List (List Nat),
      drops.length = (icomExtractFrames buf).1.length + 1 ∧
      interleaveDF drops (icomExtractFrames buf).1 (icomExtractFrames buf).2 = buf := by
  refine ⟨yaesuExtractGo_conserves buf.length buf, ?_⟩
  refine ⟨(icomExtractSegsGo buf.length buf).1, ?_, ?_⟩
  · rw [icomExtractFrames, ← (icomExtractSegsGo_agrees buf.length buf).1]
    exact (icomExtractSegsGo_spec buf.length buf).1
  · rw [icomExtractFrames, ← (icomExtractSegsGo_agrees buf.length buf).1,
      ← (icomExtractSegsGo_agrees buf.length buf).2]
    exact (icomExtractSegsGo_spec buf.length buf).2

/-! ## Update notifications per frame vs per event (C2) -/

/-- Folding a list of events emits exactly one update snapshot per event. -/
theorem applyEvents_length (evs : List Event) : ∀ (s : RadioState) (ctx : Ctx),
    (applyEvents s ctx evs).2.length = evs.length := by
  induction evs with
  | nil => intro s ctx; rfl
  | cons ev rest ih =>
    intro s ctx
    simp only [applyEvents, List.length_cons]
    rw [ih]

/-- The k-th emitted snapshot is the state right after the first k+1 events
were folded in. -/
theorem applyEvents_snapshot (k : Nat) : ∀ (evs : List Event) (s : RadioState) (ctx : Ctx),
    k < evs.length →
    (applyEvents s ctx evs).2.getD k {} = (applyEvents s ctx (evs.take (k + 1))).1.1 := by
  induction k with
  | zero =>
    intro evs s ctx hk
    match evs with
    | ev :: rest =>
      simp only [applyEvents, List.take_succ_cons, List.take_zero, List.getD_cons_zero]
  | succ k ih =>
    intro evs s ctx hk
    match evs with
    | ev :: rest =>
      simp only [applyEvents, List.take_succ_cons, List.getD_cons_succ]
      exact ih rest _ _ (by simpa using hk)

/-- C2 counterexample: the CI-V OK acknowledgement FE FE E0 A2 FB FD is one
processed frame that decodes to zero state-update events; the receive loop
emits zero update notifications for it, not exactly one. -/
theorem update_per_frame_counterexample :
    icomParseFrame [0xFE, 0xFE, 0xE0, 0xA2, 0xFB, 0xFD] = [] ∧
    (icomProcessFrame {} {} [0xFE, 0xFE, 0xE0, 0xA2, 0xFB, 0xFD]).2.length = 0 ∧
    (0 : Nat) ≠ 1 := by
  decide

/-- C2 amended: the receive loop emits one update notification per decoded
event rather than one per frame — a frame decoding to N events produces
exactly N notifications, the k-th carrying the full snapshot right after
the first k+1 of that frame's events were folded in (so a frame with zero
events emits none, and for the common single-event frames exactly one
update fires, after the event is applied). -/
theorem update_per_event (s : RadioState) (ctx : Ctx) (frameBytes : List Nat) :
    (icomProcessFrame s ctx frameBytes).2.length = (icomParseFrame frameBytes).length ∧
    ∀ k, k < (icomParseFrame frameBytes).length →
      (icomProcessFrame s ctx frameBytes).2.getD k {}
        = (applyEvents s ctx ((icomParseFrame frameBytes).take (k + 1))).1.1 := by
  refine ⟨applyEvents_length _ s ctx, ?_⟩
  intro k hk
  exact applyEvents_snapshot k _ s ctx hk

/-- C2 witness: an echoed set-frequency frame decodes to one event and
yields exactly one update, whose snapshot is the fold of that event. -/
theorem update_per_event_witness :
    (icomProcessFrame {} {} (civBuildFrame (0x03 :: icomFreqBcd 14074000))).2.length = 1 ∧
    (icomProcessFrame {} {} (civBuildFrame (0x03 :: icomFreqBcd 14074000))).2.getD 0 {}
      = (applyEvents {} {}
          ((icomParseFrame (civBuildFrame (0x03 :: icomFreqBcd 14074000))).take 1)).1.1 := by
  constructor
  · rw [(update_per_event {} {} (civBuildFrame (0x03 :: icomFreqBcd 14074000))).1]
    decide
  · exact (update_per_event {} {} (civBuildFrame (0x03 :: icomFreqBcd 14074000))).2 0 (by decide)

/-! ## Polling (C5, C10) -/

/-- In a duplicate-free list containing a, exactly one element passes the
equals-a filter. -/
theorem filter_eq_length_one {l : List Nat} {a : Nat} (hnd : l.Nodup) (hm : a ∈ l) :
    (l.filter (fun r => decide (r = a))).length = 1 := by
  induction l with
  | nil => cases hm
  | cons x xs ih =>
    have hx : x ∉ xs := (List.nodup_cons.mp hnd).1
    rcases List.mem_cons.mp hm with h | h
    · subst h
      have hnone : xs.filter (fun r => decide (r = a)) = [] := by
        rw [List.filter_eq_nil_iff]
        intro b hb
        simp only [decide_eq_true_eq]
        intro he
        exact hx (he ▸ hb)
      simp [List.filter_cons, hnone]
    · have hne : x ≠ a := fun he => hx (he ▸ h)
      simp only [List.filter_cons, decide_eq_true_eq, hne, if_false]
      exact ih (List.nodup_cons.mp hnd).2 h

/-- Elements all ≤ n fail the equals-(n+1) filter. -/
theorem filter_eq_succ_nil {l : List Nat} {n : Nat} (h : ∀ r ∈ l, r ≤ n) :
    l.filter (fun r => decide (r = n + 1)) = [] := by
  rw [List.filter_eq_nil_iff]
  intro b hb
  simp only [decide_eq_true_eq]
  intro he
  have := h b hb
  omega

/-- The clamp of startPolling always lands in [20, 10000]. -/
theorem jsClamp_poll_mem (v : Int) :
    20 ≤ jsClamp v 20 10000 ∧ jsClamp v 20 10000 ≤ 10000 :=
  ⟨le_max_left _ _, max_le (by norm_num) (min_le_left _ _)⟩

/-- A successful startPolling stores the clamp of the requested interval
(falling back to the stored one for a missing or zero argument),
independently of whether a loop already runs. -/
theorem startPolling_interval_eq (s : PollState) (i : Option Int) (s' : PollState)
    (hconn : s.connected = true) (hok : startPolling s i = .ok s') :
    s'.pollIntervalMs = jsClamp (pollArgValue s i) 20 10000 := by
  simp only [startPolling, hconn, not_true, if_false, Bool.not_eq_true] at hok
  split at hok <;> cases hok <;> rfl

/-- C5 counterexample: with polling started at 100 ms, a second
startPolling(50000) leaves one loop but stores the clamped interval
10000 ms, not the requested 50000 ms — the loop does not run at i2. -/
theorem startPolling_second_interval_counterexample :
    ((startPolling connectedPollState (some 100)).toOption.bind
        (fun s1 => (startPolling s1 (some 50000)).toOption)) =
      some { connected := true, polling := true, pollRunId := 1,
             pollIntervalMs := 10000, pollStopLogged := false, spawned := [1] } ∧
    (10000 : Int) ≠ 50000 := by
  decide

/-- C5 amended: calling startPolling twice while connected leaves exactly
one live poll loop (a second loop is never spawned), running at the
clamped second interval jsClamp i2 20 10000 — equal to i2 itself whenever
i2 lies within [20, 10000]. -/
theorem startPolling_idempotent (s : PollState) (i1 i2 : Int)
    (hconn : s.connected = true) (hInv : PollInv s) (hi2 : i2 ≠ 0) :
    ∃ s1 s2, startPolling s (some i1) = .ok s1 ∧ startPolling s1 (some i2) = .ok s2 ∧
      activeLoops s2 = 1 ∧ s2.pollIntervalMs = jsClamp i2 20 10000 ∧
      (20 ≤ i2 → i2 ≤ 10000 → s2.pollIntervalMs = i2) := by
  obtain ⟨hnd, hle, hmem⟩ := hInv
  have hlast : ∀ s2 : PollState, s2.pollIntervalMs = jsClamp i2 20 10000 →
      (20 ≤ i2 → i2 ≤ 10000 → s2.pollIntervalMs = i2) := by
    intro s2 h ha hb
    rw [h, jsClamp, min_eq_right hb, max_eq_right ha]
  by_cases hpol : s.polling
  · -- already polling: both calls only store the clamped interval
    refine ⟨({ s with pollIntervalMs := jsClamp (pollArgValue s (some i1)) 20 10000 }),
            ({ s with pollIntervalMs := jsClamp i2 20 10000 }), ?_, ?_, ?_, rfl, hlast _ rfl⟩
    · simp [startPolling, hconn, hpol]
    · simp [startPolling, pollArgValue, hconn, hpol, hi2]
    · simp only [activeLoops, hpol]
      simpa using filter_eq_length_one hnd (hmem hpol)
  · -- first call spawns the single loop; the second only updates the interval
    refine ⟨({ s with pollIntervalMs := jsClamp (pollArgValue s (some i1)) 20 10000, polling := true, pollStopLogged := false, pollRunId := s.pollRunId + 1, spawned := s.spawned ++ [s.pollRunId + 1] }),
            ({ s with pollIntervalMs := jsClamp i2 20 10000, polling := true, pollStopLogged := false, pollRunId := s.pollRunId + 1, spawned := s.spawned ++ [s.pollRunId + 1] }), ?_, ?_, ?_, rfl, hlast _ rfl⟩
    · simp [startPolling, hconn, hpol]
    · simp [startPolling, pollArgValue, hconn, hi2]
    · simp only [activeLoops, List.filter_append, List.length_append, true_and]
      rw [filter_eq_succ_nil hle]
      simp

/-- C5 witness: from the freshly connected controller, startPolling(100)
then startPolling(5000) yields one live loop at 5000 ms. -/
theorem startPolling_idempotent_witness :
    ∃ s1 s2, startPolling connectedPollState (some 100) = .ok s1 ∧
      startPolling s1 (some 5000) = .ok s2 ∧
      activeLoops s2 = 1 ∧ s2.pollIntervalMs = jsClamp 5000 20 10000 ∧
      (20 ≤ (5000 : Int) → (5000 : Int) ≤ 10000 → s2.pollIntervalMs = 5000) :=
  startPolling_idempotent connectedPollState 100 5000 (by decide)
    ⟨by decide, by decide, by decide⟩ (by decide)

/-- C10: the controller's stored polling interval starts at 250 ms and
stays within [20, 10000]: every successful startPolling stores the clamp
of the requested interval into that range, a non-numeric (NaN) or zero
argument keeps the previous interval, and stopPolling leaves the interval
untouched.  A failing (not-connected) startPolling changes nothing. -/
theorem pollInterval_invariant (s : PollState) (i : Option Int)
    (hs : 20 ≤ s.pollIntervalMs ∧ s.pollIntervalMs ≤ 10000) :
    initialPollState.pollIntervalMs = 250 ∧
    (∀ s', startPolling s i = .ok s' →
      (20 ≤ s'.pollIntervalMs ∧ s'.pollIntervalMs ≤ 10000) ∧
      ((i = none ∨ i = some 0) → s'.pollIntervalMs = s.pollIntervalMs) ∧
      (∀ n, i = some n → n ≠ 0 → s'.pollIntervalMs = jsClamp n 20 10000)) ∧
    (stopPolling s).pollIntervalMs = s.pollIntervalMs := by
  have hclamp0 : jsClamp s.pollIntervalMs 20 10000 = s.pollIntervalMs := by
    rw [jsClamp, min_eq_right hs.2, max_eq_right hs.1]
  refine ⟨rfl, ?_, ?_⟩
  · intro s' hok
    by_cases hconn : s.connected
    · have hint := startPolling_interval_eq s i s' hconn hok
      refine ⟨?_, ?_, ?_⟩
      · rw [hint]
        exact jsClamp_poll_mem _
      · rintro (h | h) <;> subst h <;> simpa [pollArgValue, hclamp0] using hint
      · intro n hn hn0
        subst hn
        simpa [pollArgValue, hn0] using hint
    · simp [startPolling, hconn] at hok
  · rw [stopPolling]
    split <;> rfl

/-- C10 witness: the initial interval is 250 ms, and stopPolling on the
connected controller keeps it. -/
theorem pollInterval_invariant_witness :
    initialPollState.pollIntervalMs = 250 ∧
    (stopPolling connectedPollState).pollIntervalMs = 250 :=
  ⟨(pollInterval_invariant connectedPollState (some 50) (by decide)).1,
   ((pollInterval_invariant connectedPollState (some 50) (by decide)).2.2).trans (by decide)⟩

/-! ## Decode tolerance (C6) -/

/-- C6 counterexample: a framing-valid frequency response whose five
payload bytes are 0xFF — every nibble is a malformed BCD digit — does not
yield the empty event list: _decodeFreqHz performs no digit validation and
parseFrame reports a frequency event of 16666666665 Hz. -/
theorem parseFrame_malformed_bcd_counterexample :
    icomParseFrame [0xFE, 0xFE, 0xE0, 0xA2, 0x03, 0xFF, 0xFF, 0xFF, 0xFF, 0xFF, 0xFD]
      = [.freq 16666666665] ∧
    ([Event.freq 16666666665] : List Event) ≠ [] := by
  decide

/-- C6 amended: parseFrame never throws (it is a total function into event
lists) and yields the empty event list for every frame failing the
structural checks — for the CI-V driver, frames shorter than six bytes or
with bad start/end markers, and validly framed bodies whose command byte
is outside the recognized set; for the ASCII driver, frames whose trimmed
text does not end in the delimiter, and delimited frames with an
unrecognized command prefix.  Malformed BCD digits, however, do not lead
to an empty list: frequency payloads are decoded without digit validation
and level payloads fall back to the first raw byte. -/
theorem parseFrame_tolerates_garbage (frameBytes : List Nat) (ctx : Option Int) :
    (icomParseBody frameBytes = none → icomParseFrame frameBytes = []) ∧
    (∀ body, icomParseBody frameBytes = some body →
      ¬ (body.getD 0 0 = 0x03 ∨ body.getD 0 0 = 0x04 ∨ body.getD 0 0 = 0x1C ∨
         body.getD 0 0 = 0x15 ∨ body.getD 0 0 = 0x14) →
      icomParseFrame frameBytes = []) ∧
    ((jsTrim (frameBytes.map jsByteChar)).getLast? ≠ some ';' →
      yaesuParseFrame ctx frameBytes = []) ∧
    ((jsTrim (frameBytes.map jsByteChar)).getLast? = some ';' →
      ¬ List.isPrefixOf ['F', 'A'] ((jsTrim (frameBytes.map jsByteChar)).dropLast) →
      ¬ List.isPrefixOf ['M', 'D'] ((jsTrim (frameBytes.map jsByteChar)).dropLast) →
      ¬ List.isPrefixOf ['T', 'X'] ((jsTrim (frameBytes.map jsByteChar)).dropLast) →
      ¬ List.isPrefixOf ['P', 'C'] ((jsTrim (frameBytes.map jsByteChar)).dropLast) →
      ¬ List.isPrefixOf ['R', 'M'] ((jsTrim (frameBytes.map jsByteChar)).dropLast) →
      yaesuParseFrame ctx frameBytes = []) := by
  refine ⟨?_, ?_, ?_, ?_⟩
  · intro h
    simp [icomParseFrame, h]
  · intro body hbody hcmd
    push_neg at hcmd
    obtain ⟨h3, h4, h1c, h15, h14⟩ := hcmd
    simp only [icomParseFrame, hbody]
    by_cases hok : body.length = 1 ∧ (body.getD 0 0 = 0xFB ∨ body.getD 0 0 = 0xFA)
    · rw [if_pos hok]
    · rw [if_neg hok, if_neg h3, if_neg h4, if_neg (fun hc => absurd hc.1 h1c),
        if_neg (fun hc => absurd hc.1 h15), if_neg (fun hc => absurd hc.1 h14)]
  · intro h
    simp only [yaesuParseFrame]
    rw [if_neg h]
  · intro hend hfa hmd htx hpc hrm
    simp only [yaesuParseFrame]
    rw [if_pos hend, if_neg (by simp [hfa]), if_neg (by simp [hmd]),
      if_neg (by simp [htx]), if_neg (by simp [hpc]), if_neg (by simp [hrm])]

/-- C6 witness: three noise bytes produce no events in either driver. -/
theorem parseFrame_tolerates_garbage_witness :
    icomParseFrame [1, 2, 3] = [] ∧ yaesuParseFrame none [1, 2, 3] = [] :=
  ⟨(parseFrame_tolerates_garbage [1, 2, 3] none).1 (by decide),
   (parseFrame_tolerates_garbage [1, 2, 3] none).2.2.1 (by decide)⟩

/-! ## Interpolation monotonicity (C9) -/

/-- With ascending y values, the segment scan never drops below the base
point's y for a query right of the base point. -/
theorem interpSeg_ge (x : ℚ) : ∀ (rest : List Pt) (p0 : Pt),
    List.Chain' (fun p q : Pt => p.x ≤ q.x) (p0 :: rest) →
    List.Chain' (fun p q : Pt => p.y ≤ q.y) (p0 :: rest) →
    p0.x < x →
    p0.y ≤ interpSeg x p0 rest := by
  intro rest
  induction rest with
  | nil =>
    intro p0 _ _ _
    simp [interpSeg]
  | cons p1 rest ih =>
    intro p0 hx hy h0
    rcases List.chain'_cons.mp hx with ⟨hx01, hxtail⟩
    rcases List.chain'_cons.mp hy with ⟨hy01, hytail⟩
    simp only [interpSeg]
    split_ifs with hle
    · rw [lerp]
      have ht : 0 ≤ (x - p0.x) / (p1.x - p0.x) :=
        div_nonneg (by linarith) (by linarith)
      nlinarith [mul_nonneg (sub_nonneg.mpr hy01) ht]
    · push_neg at hle
      exact le_trans hy01 (ih p1 hxtail hytail hle)

/-- The segment scan is monotone in the query point, for sorted points with
ascending y values. -/
theorem interpSeg_mono (x1 x2 : ℚ) (h12 : x1 ≤ x2) : ∀ (rest : List Pt) (p0 : Pt),
    List.Chain' (fun p q : Pt => p.x ≤ q.x) (p0 :: rest) →
    List.Chain' (fun p q : Pt => p.y ≤ q.y) (p0 :: rest) →
    p0.x < x1 →
    interpSeg x1 p0 rest ≤ interpSeg x2 p0 rest := by
  intro rest
  induction rest with
  | nil =>
    intro p0 _ _ _
    simp [interpSeg]
  | cons p1 rest ih =>
    intro p0 hx hy h01
    have h02 : p0.x < x2 := lt_of_lt_of_le h01 h12
    rcases List.chain'_cons.mp hx with ⟨hx01, hxtail⟩
    rcases List.chain'_cons.mp hy with ⟨hy01, hytail⟩
    simp only [interpSeg]
    split_ifs with h1 h2 h3
    · -- both queries inside this segment
      rw [lerp, lerp]
      have hden : 0 < p1.x - p0.x := by linarith
      have hdiv : (x1 - p0.x) / (p1.x - p0.x) ≤ (x2 - p0.x) / (p1.x - p0.x) :=
        (div_le_div_iff_of_pos_right hden).mpr (by linarith)
      have hdy : 0 ≤ p1.y - p0.y := by linarith
      nlinarith [mul_le_mul_of_nonneg_left hdiv hdy]
    · -- x1 inside, x2 beyond p1
      push_neg at h2
      have hge := interpSeg_ge x2 rest p1 hxtail hytail h2
      have hlerp : lerp p0.y p1.y ((x1 - p0.x) / (p1.x - p0.x)) ≤ p1.y := by
        rw [lerp]
        have hden : 0 < p1.x - p0.x := by linarith
        have ht1 : (x1 - p0.x) / (p1.x - p0.x) ≤ 1 := by
          rw [div_le_one hden]
          linarith
        have ht0 : 0 ≤ (x1 - p0.x) / (p1.x - p0.x) :=
          div_nonneg (by linarith) (by linarith)
        have hdy : 0 ≤ p1.y - p0.y := by linarith
        nlinarith
      exact le_trans hlerp hge
    · -- x1 beyond p1 but x2 not: impossible
      push_neg at h1
      linarith
    · -- both beyond p1
      push_neg at h1
      exact ih p1 hxtail hytail h1

/-- C9: interp1D is monotone — for at least two control points sorted by x
with non-decreasing y values, and queries x1 ≤ x2, the interpolated (or
endpoint-clamped) value at x1 is at most the one at x2. -/
theorem interp1D_monotone (points : List Pt) (x1 x2 : ℚ)
    (hlen : 2 ≤ points.length)
    (hx : List.Chain' (fun p q : Pt => p.x ≤ q.x) points)
    (hy : List.Chain' (fun p q : Pt => p.y ≤ q.y) points)
    (h12 : x1 ≤ x2) :
    ∀ v1 v2 : ℚ, interp1D x1 points = some v1 → interp1D x2 points = some v2 → v1 ≤ v2 := by
  intro v1 v2 h1 h2
  haveI : IsTrans Pt (fun p q : Pt => p.x ≤ q.x) := ⟨fun _ _ _ hab hbc => le_trans hab hbc⟩
  have hpw : List.Pairwise (fun p q : Pt => (decide (p.x ≤ q.x)) = true) points :=
    (List.chain'_iff_pairwise.mp hx).imp (fun h => decide_eq_true h)
  have hsorted : points.mergeSort (fun p q => decide (p.x ≤ q.x)) = points :=
    List.mergeSort_of_sorted hpw
  obtain ⟨p0, rest, rfl⟩ : ∃ p0 rest, points = p0 :: rest := by
    cases points with
    | nil => simp at hlen
    | cons p0 rest => exact ⟨p0, rest, rfl⟩
  rw [interp1D, if_neg (by omega), hsorted] at h1 h2
  have hv1 := Option.some.inj h1
  have hv2 := Option.some.inj h2
  rw [← hv1, ← hv2]
  by_cases c1 : x1 ≤ p0.x <;> by_cases c2 : x2 ≤ p0.x
  · rw [if_pos c1, if_pos c2]
  · push_neg at c2
    rw [if_pos c1, if_neg (not_le.mpr c2)]
    exact interpSeg_ge x2 rest p0 hx hy c2
  · push_neg at c1
    linarith
  · push_neg at c1 c2
    rw [if_neg (not_le.mpr c1), if_neg (not_le.mpr c2)]
    exact interpSeg_mono x1 x2 h12 rest p0 hx hy c1

/-- C9 witness: on the CI-V SWR calibration points, the interpolated value
at raw 50 is at most the one at raw 100. -/
theorem interp1D_monotone_witness :
    interp1D 50 icomSwrPoints = some (49 / 32) ∧
    interp1D 100 icomSwrPoints = some (5 / 2) ∧
    (49 / 32 : ℚ) ≤ 5 / 2 := by
  have hpw : List.Pairwise (fun p q : Pt => (decide (p.x ≤ q.x)) = true) icomSwrPoints := by
    decide
  have hsorted : icomSwrPoints.mergeSort (fun p q => decide (p.x ≤ q.x)) = icomSwrPoints :=
    List.mergeSort_of_sorted hpw
  have h1 : interp1D 50 icomSwrPoints = some (49 / 32) := by
    rw [interp1D, if_neg (by decide), hsorted]
    norm_num [icomSwrPoints, interpSeg, lerp]
  have h2 : interp1D 100 icomSwrPoints = some (5 / 2) := by
    rw [interp1D, if_neg (by decide), hsorted]
    norm_num [icomSwrPoints, interpSeg, lerp]
  exact ⟨h1, h2,
    interp1D_monotone icomSwrPoints 50 100 (by decide)
      (by norm_num [icomSwrPoints, List.chain'_cons])
      (by norm_num [icomSwrPoints, List.chain'_cons])
      (by norm_num) (49 / 32) (5 / 2) h1 h2⟩

end WebCAT
